import Mathlib

/-!
Shallow embedding of `src/glfw/ibus_glfw.c`, the IBus input-method
integration layer of the GLFW backend.

External collaborators (the process environment, the filesystem, the DBus
transport) are modelled as oracles in a `World` record.  The mutable
`_GLFWIBUSData` struct is the `IBusData` record.  Each stateful C function
becomes a Lean function from the state and the world to the new state, the
returned `GLFWbool` where the C function returns one, and a trace of the
externally observable actions it performed, in order.
-/

namespace IBusGlfw

/-- The NUL character, modelling C string terminator writes into buffers. -/
def nul : Char := Char.ofNat 0

/-- The PATH_MAX limit, the size of the static path buffer `ans` in the source. -/
def PATH_MAX : Nat := 4096

/-- Opaque DBus connection handles, modelled as numeric ids. -/
abbrev Conn := Nat

/-- Externally observable actions, recorded in traces. -/
inductive Event where
  | reportError (msg : String)
  | statCall (path : Option String)
  | fopenCall (path : Option String)
  | fcloseCall
  | closeConn (c : Conn)
  | connectTo (addr : Option String)
  | createCall
  | flushBus
  | addMatch
  | registerHandler (path : Option String)
  | voidCall (method : String)
  | setupEntry
  | freeField (fieldName : String)
deriving DecidableEq

/-- Whether an event is the opening of a new DBus connection. -/
def Event.isConnect : Event → Bool
  | Event.connectTo _ => true
  | _ => false

/-- The `_GLFWIBUSData` struct: zero-initialized at startup. -/
structure IBusData where
  inited : Bool := false
  ok : Bool := false
  conn : Option Conn := none
  address : Option String := none
  address_file_name : Option String := none
  address_file_mtime : Int := 0
  input_ctx_path : Option String := none
deriving DecidableEq

/-- Oracles for the external collaborators: getenv, the filesystem
(file contents and stat mtimes, both keyed by the possibly-NULL path
argument), and the DBus transport. -/
structure World where
  env : String → Option String
  machineId : String
  fileContent : Option String → Option String
  statMtime : Option String → Option Int
  connect : Option String → Option Conn
  isConnected : Conn → Bool
  createCallOk : Bool
  voidCallOk : String → Bool
  replyError : Option String
  replyCtxPath : Option String

/-- Model of `has_env_var`: getenv followed by strcmp against the expected value. -/
def has_env_var (w : World) (envName val : String) : Bool :=
  match w.env envName with
  | some q => q == val
  | none => false

/-- The `MIN` helper from the source. -/
def MIN (a b : Nat) : Nat := if a < b then a else b

/-- Reading a fixed-size zeroed char buffer after copying at most `n`
characters into it yields the first `n` characters. -/
def strTake (n : Nat) (s : String) : String := ⟨s.data.take n⟩

/-- The capability bit constants of `enum Capabilities`. -/
def IBUS_CAP_PREEDIT_TEXT : Nat := 1
/-- Capability bit: auxiliary text. -/
def IBUS_CAP_AUXILIARY_TEXT : Nat := 2
/-- Capability bit: lookup table. -/
def IBUS_CAP_LOOKUP_TABLE : Nat := 4
/-- Capability bit: focus. -/
def IBUS_CAP_FOCUS : Nat := 8
/-- Capability bit: property. -/
def IBUS_CAP_PROPERTY : Nat := 16
/-- Capability bit: surrounding text. -/
def IBUS_CAP_SURROUNDING_TEXT : Nat := 32

/-- Index of the last occurrence of a character in a list (`strrchr`). -/
def lastIdxOf (c : Char) : List Char → Option Nat
  | [] => none
  | a :: t =>
    match lastIdxOf c t with
    | some i => some (i + 1)
    | none => if a = c then some 0 else none

/-- Reading a char buffer as a C string: everything before the first NUL. -/
def cstr (l : List Char) : List Char := l.takeWhile (fun c => c != nul)

/-- The DISPLAY-splitting logic of `get_ibus_address_file_name`, faithful to
the source: `strrchr` finds the last colon and the last dot of the original
string, a NUL is written over each, `host` reads the buffer from the start,
`disp_num` reads it from just past the colon, and an empty host is replaced
by "unix".  Returns `none` when the display has no colon. -/
def parse_display (d : String) : Option (String × String) :=
  let l := d.data
  match lastIdxOf ':' l with
  | none => none
  | some ci =>
    let l1 := l.set ci nul
    let l2 := match lastIdxOf '.' l with
              | some di => l1.set di nul
              | none => l1
    let host := cstr l2
    let dispNum := cstr (l2.drop (ci + 1))
    some (if host.isEmpty then "unix" else ⟨host⟩, ⟨dispNum⟩)

/-- Rendering of the splitting rule exactly as the claim words it: host is
the characters before the FIRST colon, and the display number runs from the
first colon to the FIRST dot after it (or to the end if there is none). -/
def resolve_display_claim (d : String) : Option (String × String) :=
  let l := d.data
  match l.findIdx? (fun c => c = ':') with
  | none => none
  | some ci =>
    let host := l.take ci
    let rest := l.drop (ci + 1)
    let dispNum := match rest.findIdx? (fun c => c = '.') with
                   | some di => rest.take di
                   | none => rest
    some (if host.isEmpty then "unix" else ⟨host⟩, ⟨dispNum⟩)

/-- The amended splitting rule: split at the LAST colon; the LAST dot of the
whole string truncates the host when it precedes the colon, and bounds the
display number when it follows the colon. -/
def parse_display_amended (d : String) : Option (String × String) :=
  let l := d.data
  match lastIdxOf ':' l with
  | none => none
  | some ci =>
    let di? := lastIdxOf '.' l
    let host := match di? with
                | some di => if di < ci then l.take di else l.take ci
                | none => l.take ci
    let dispNum := match di? with
                   | some di => if ci < di then (l.drop (ci + 1)).take (di - (ci + 1))
                                else l.drop (ci + 1)
                   | none => l.drop (ci + 1)
    some (if host.isEmpty then "unix" else ⟨host⟩, ⟨dispNum⟩)

/-- Composition `<conf>/ibus/bus/<machine-id>-<host>-<disp>` of the address
file path by the two snprintf calls into the PATH_MAX buffer. -/
def compose_path (conf key host disp : String) : String :=
  if conf.length ≤ PATH_MAX - 1 then
    strTake (PATH_MAX - 1) (conf ++ ("/ibus/bus/" ++ key ++ "-" ++ host ++ "-" ++ disp))
  else strTake (PATH_MAX - 1) conf

/-- The HOME fallback for the config directory: `$HOME/.config`, or `none`
when HOME is unset or empty. -/
def home_config (w : World) : Option String :=
  match w.env "HOME" with
  | some h => if h.data = [] then none else some (h ++ "/.config")
  | none => none

/-- The config home: `$XDG_CONFIG_HOME` when set and non-empty, else the
HOME fallback. -/
def config_home (w : World) : Option String :=
  match w.env "XDG_CONFIG_HOME" with
  | some conf => if conf.data = [] then home_config w else some conf
  | none => home_config w

/-- The DISPLAY-derived branch of `get_ibus_address_file_name`. -/
def derive_address_file (w : World) : Option String × List Event :=
  let de := match w.env "DISPLAY" with
            | some d => if d.data = [] then ":0.0" else d
            | none => ":0.0"
  match parse_display de with
  | none =>
    (none, [Event.reportError "Could not get IBUS address file name as DISPLAY env var has no colon"])
  | some (host, dispNum) =>
    match config_home w with
    | none =>
      (none, [Event.reportError "Could not get IBUS address file name as no HOME env var is set"])
    | some conf => (some (compose_path conf w.machineId host dispNum), [])

/-- Model of `get_ibus_address_file_name`: the IBUS_ADDRESS environment override when
set and non-empty (copied into the fixed buffer, hence truncated to
PATH_MAX), else the DISPLAY-derived path. -/
def get_ibus_address_file_name (w : World) : Option String × List Event :=
  match w.env "IBUS_ADDRESS" with
  | some addr =>
    if addr.data = [] then derive_address_file w
    else (some (strTake PATH_MAX addr), [])
  | none => derive_address_file w

/-- One `fgets` call into the 1024-byte buffer: at most `n` characters are
consumed, stopping just after the first newline. -/
def takeLine : Nat → List Char → List Char
  | 0, _ => []
  | _, [] => []
  | n + 1, c :: t => if c = '\n' then [c] else c :: takeLine n t

/-- The `while (fgets(...))` loop, fuelled: each iteration reads one chunk
of at most 1023 characters. -/
def fgets_loop : Nat → List Char → List (List Char)
  | 0, _ => []
  | fuel + 1, l =>
    if l.isEmpty then []
    else
      let chunk := takeLine 1023 l
      chunk :: fgets_loop fuel (l.drop chunk.length)

/-- All chunks `fgets` returns for a given file content.  Each iteration
consumes at least one character, so `l.length` fuel always suffices. -/
def fgets_chunks (l : List Char) : List (List Char) := fgets_loop l.length l

/-- The characters of the well-known address key "IBUS_ADDRESS=". -/
def key13 : List Char := "IBUS_ADDRESS=".data

/-- The `strncmp(buf, "IBUS_ADDRESS=", 13) == 0` test on a chunk. -/
def chunk_matches (chunk : List Char) : Bool := chunk.take 13 == key13

/-- The first terminator write on a matched chunk: a NUL over a trailing
newline at position `sz-1`. -/
def strip_lf (chunk : List Char) : List Char :=
  if chunk[chunk.length - 1]? = some '\n' then chunk.set (chunk.length - 1) nul else chunk

/-- The two terminator writes on a matched chunk: a NUL over a trailing
newline, then a NUL over position `sz-2` when it holds a carriage return
(`sz` is the strlen taken before either write). -/
def strip_chunk (chunk : List Char) : List Char :=
  if (strip_lf chunk)[chunk.length - 2]? = some '\r' then
    (strip_lf chunk).set (chunk.length - 2) nul
  else strip_lf chunk

/-- The value returned for a matched chunk: the C string starting just
after the 13-character key, in the stripped buffer. -/
def value_of_chunk (chunk : List Char) : List Char :=
  cstr ((strip_chunk chunk).drop 13)

/-- The scan loop of `read_ibus_address`: the value of the first chunk that
matches the key, or `none`. -/
def find_value : List (List Char) → Option (List Char)
  | [] => none
  | ch :: rest => if chunk_matches ch then some (value_of_chunk ch) else find_value rest

/-- Model of `read_ibus_address`: opens `ibus->address_file_name`, fstats it, scans
for the key, closes the file, and on a successful stat stores the mtime;
the address is replaced only when a matching line was found. -/
def read_ibus_address (s : IBusData) (w : World) : IBusData × Bool × List Event :=
  match w.fileContent s.address_file_name with
  | none =>
    (s, false, [Event.fopenCall s.address_file_name, Event.reportError "Failed to open IBUS address file"])
  | some content =>
    let found := find_value (fgets_chunks content.data)
    match w.statMtime s.address_file_name with
    | none =>
      (s, false,
       [Event.fopenCall s.address_file_name, Event.fcloseCall,
        Event.reportError "Failed to stat IBUS address file"])
    | some m =>
      match found with
      | some v =>
        ({s with address_file_mtime := m, address := some ⟨v⟩}, true,
         [Event.fopenCall s.address_file_name, Event.fcloseCall])
      | none =>
        ({s with address_file_mtime := m}, false,
         [Event.fopenCall s.address_file_name, Event.fcloseCall,
          Event.reportError "Could not find IBUS_ADDRESS in address file"])

/-- The body of `setup_connection` (the `Event.setupEntry` marker is added
by the wrapper below): resolve the address-file path, read the address,
close any old connection, connect to the fresh address, clear the old
input-context path, issue the asynchronous CreateInputContext call, and
register the signal match and the object-path handler. -/
def setup_connection_body (s0 : IBusData) (w : World) : IBusData × Bool × List Event :=
  let r0 := get_ibus_address_file_name w
  let s := {s0 with ok := false}
  match r0.1 with
  | none => (s, false, r0.2)
  | some fn =>
    let s := {s with address_file_name := some fn}
    let r1 := read_ibus_address s w
    let s := r1.1
    if r1.2.1 = false then (s, false, r0.2 ++ r1.2.2)
    else
      let closed := match s.conn with
                    | some c => ({s with conn := none}, [Event.closeConn c])
                    | none => (s, ([] : List Event))
      let s := closed.1
      let t2 := closed.2
      match w.connect s.address with
      | none => (s, false, r0.2 ++ r1.2.2 ++ t2 ++ [Event.connectTo s.address])
      | some c =>
        let tconn := [Event.connectTo s.address]
        let s := {s with conn := some c, input_ctx_path := none}
        if w.createCallOk then
          (s, true,
           r0.2 ++ r1.2.2 ++ t2 ++ tconn ++
           [Event.createCall, Event.flushBus, Event.addMatch,
            Event.registerHandler s.input_ctx_path, Event.flushBus])
        else (s, false, r0.2 ++ r1.2.2 ++ t2 ++ tconn ++ [Event.createCall])

/-- Model of `setup_connection`, with an entry marker prepended to the trace so that
"a connection attempt was made" is observable. -/
def setup_connection (s : IBusData) (w : World) : IBusData × Bool × List Event :=
  let r := setup_connection_body s w
  (r.1, r.2.1, Event.setupEntry :: r.2.2)

/-- The stale-address branch of `check_connection`: stat the stored path;
when the stat fails or the mtime differs, re-read the address and, if the
read succeeds, run a fresh `setup_connection`; otherwise fail. -/
def check_stale (s : IBusData) (w : World) : IBusData × Bool × List Event :=
  let tev := [Event.statCall s.address_file_name]
  let reread :=
    let r1 := read_ibus_address s w
    if r1.2.1 = false then (r1.1, false, tev ++ r1.2.2)
    else
      let r2 := setup_connection r1.1 w
      (r2.1, r2.2.1, tev ++ r1.2.2 ++ r2.2.2)
  match w.statMtime s.address_file_name with
  | none => reread
  | some m => if m = s.address_file_mtime then (s, false, tev) else reread

/-- Model of `check_connection`: false when never activated; true when the current
connection reports itself live; otherwise the stale-address branch. -/
def check_connection (s : IBusData) (w : World) : IBusData × Bool × List Event :=
  if s.inited = false then (s, false, [])
  else
    match s.conn with
    | some c => if w.isConnected c then (s, true, []) else check_stale s w
    | none => check_stale s w

/-- Model of `simple_message`: a fire-and-forget method call gated on
`check_connection`. -/
def simple_message (s : IBusData) (w : World) (method : String) : IBusData × List Event :=
  let r := check_connection s w
  if r.2.1 then (r.1, r.2.2 ++ [Event.voidCall method]) else (r.1, r.2.2)

/-- Model of `glfw_ibus_set_focused`: FocusIn or FocusOut via `simple_message`. -/
def glfw_ibus_set_focused (s : IBusData) (w : World) (focused : Bool) : IBusData × List Event :=
  simple_message s w (if focused then "FocusIn" else "FocusOut")

/-- Model of `set_cursor_geometry`: a SetCursorLocation call gated on
`check_connection`; the four integers do not affect the session state. -/
def set_cursor_geometry (s : IBusData) (w : World) (x y wd h : Int) : IBusData × List Event :=
  let r := check_connection s w
  if r.2.1 then (r.1, r.2.2 ++ [Event.voidCall "SetCursorLocation"]) else (r.1, r.2.2)

/-- Model of `input_context_created`, the CreateInputContext continuation: abort on
an error reply or a malformed reply; otherwise store the daemon-assigned
context path, register capabilities (abort on failure), prime focus-out and
zero cursor geometry, and only then set `ok`. -/
def input_context_created (errmsg : Option String) (pathArg : Option String)
    (s : IBusData) (w : World) : IBusData × List Event :=
  match errmsg with
  | some e => (s, [Event.reportError e])
  | none =>
    match pathArg with
    | none => (s, [Event.reportError "Failed to get IBUS context path from reply"])
    | some p =>
      let s := {s with input_ctx_path := some p}
      if w.voidCallOk "SetCapabilities" then
        let r1 := glfw_ibus_set_focused s w false
        let r2 := set_cursor_geometry r1.1 w 0 0 0 0
        ({r2.1 with ok := true}, Event.voidCall "SetCapabilities" :: (r1.2 ++ r2.2))
      else (s, [Event.voidCall "SetCapabilities"])

/-- The later dispatch of the CreateInputContext reply: the transport
invokes the registered continuation with the reply carried by the world. -/
def dispatch_reply (s : IBusData) (w : World) : IBusData × List Event :=
  input_context_created w.replyError w.replyCtxPath s w

/-- Model of `glfw_connect_to_ibus`: a no-op when already inited or when none of the
three IME-selector variables has its expected value; otherwise set `inited`
and run `setup_connection`. -/
def glfw_connect_to_ibus (s : IBusData) (w : World) : IBusData × List Event :=
  if s.inited then (s, [])
  else
    if has_env_var w "XMODIFIERS" "@im=ibus" || has_env_var w "GTK_IM_MODULE" "ibus" ||
       has_env_var w "QT_IM_MODULE" "ibus" then
      let r := setup_connection {s with inited := true} w
      (r.1, r.2.2)
    else (s, [])

/-- Model of `glfw_ibus_terminate`: close the connection if any, free each owned
string field (nulling it immediately), and clear `ok`.  `inited` is not
touched. -/
def glfw_ibus_terminate (s : IBusData) : IBusData × List Event :=
  let r1 := match s.conn with
            | some c => ({s with conn := none}, [Event.closeConn c])
            | none => (s, ([] : List Event))
  let r2 := match r1.1.input_ctx_path with
            | some _ => ({r1.1 with input_ctx_path := none}, [Event.freeField "input_ctx_path"])
            | none => (r1.1, ([] : List Event))
  let r3 := match r2.1.address with
            | some _ => ({r2.1 with address := none}, [Event.freeField "address"])
            | none => (r2.1, ([] : List Event))
  let r4 := match r3.1.address_file_name with
            | some _ => ({r3.1 with address_file_name := none}, [Event.freeField "address_file_name"])
            | none => (r3.1, ([] : List Event))
  ({r4.1 with ok := false}, r1.2 ++ r2.2 ++ r3.2 ++ r4.2)

/-- A baseline world: empty environment, empty filesystem, dead transport. -/
def wEmpty : World :=
  { env := fun _ => none, machineId := "m",
    fileContent := fun _ => none,
    statMtime := fun _ => none,
    connect := fun _ => none, isConnected := fun _ => false,
    createCallOk := false, voidCallOk := fun _ => false,
    replyError := none, replyCtxPath := none }

/-- An activated session state holding an address file and a dead connection. -/
def sLive : IBusData :=
  { inited := true, ok := false, conn := some 1, address := some "x",
    address_file_name := some "/tmp/af", address_file_mtime := 5,
    input_ctx_path := none }

/-- An activated session state with no connection, pointing at file "f". -/
def sFile : IBusData :=
  { inited := true, ok := false, conn := none, address := some "old",
    address_file_name := some "f", address_file_mtime := 0,
    input_ctx_path := none }

/-- A world whose address file "f" uses a CR-only line ending. -/
def wCrFile : World :=
  { wEmpty with
    fileContent := fun p => if p = some "f" then some "IBUS_ADDRESS=abc\r" else none,
    statMtime := fun p => if p = some "f" then some 7 else none }

/-- A world whose address file "f" contains no IBUS_ADDRESS line. -/
def wNoKey : World :=
  { wEmpty with
    fileContent := fun p => if p = some "f" then some "FOO=bar\n" else none,
    statMtime := fun p => if p = some "f" then some 42 else none }

/-- A world where the whole connection setup succeeds: the override points
at the address file, the daemon is reachable, and the create-context reply
will assign a context path. -/
def wReply : World :=
  { env := fun n => if n = "IBUS_ADDRESS" then some "/tmp/af" else none, machineId := "m",
    fileContent := fun p => if p = some "/tmp/af" then some "IBUS_ADDRESS=addr1\n" else none,
    statMtime := fun p => if p = some "/tmp/af" then some 9 else none,
    connect := fun a => if a = some "addr1" then some 2 else none,
    isConnected := fun _ => false,
    createCallOk := true, voidCallOk := fun _ => true,
    replyError := none, replyCtxPath := some "/org/freedesktop/IBus/InputContext_1" }

/-- A world configured through DISPLAY ":1.0" and XDG_CONFIG_HOME. -/
def wDisplay : World :=
  { wEmpty with
    machineId := "mid",
    env := fun n => if n = "DISPLAY" then some ":1.0"
                    else if n = "XDG_CONFIG_HOME" then some "/home/u/.cfg" else none }

/-- A world advertising ibus through XMODIFIERS. -/
def wGate : World :=
  { wEmpty with env := fun n => if n = "XMODIFIERS" then some "@im=ibus" else none }

/-- A world whose address file "f" is a single LF-terminated matching line. -/
def wLfFile : World :=
  { wEmpty with
    fileContent := fun p => if p = some "f" then some "IBUS_ADDRESS=abc\n" else none,
    statMtime := fun p => if p = some "f" then some 7 else none }

/-- The zero-initialized session state. -/
def sZero : IBusData := {}

/-! ## Supporting lemmas -/

theorem cstr_of_not_mem {l : List Char} (h : nul ∉ l) : cstr l = l := by
  unfold cstr
  rw [List.takeWhile_eq_self_iff]
  intro x hx
  simp only [bne_iff_ne, ne_eq]
  exact fun he => h (he ▸ hx)

theorem cstr_append_nul {A : List Char} (B : List Char) (h : nul ∉ A) :
    cstr (A ++ nul :: B) = A := by
  induction A with
  | nil => simp [cstr]
  | cons a t ih =>
    have ha : a ≠ nul := fun he => h (by simp [he])
    have ht : nul ∉ t := fun hm => h (by simp [hm])
    simpa [cstr, List.takeWhile_cons, ha] using ih ht

theorem cstr_set_nul {l : List Char} {i : Nat} (h : nul ∉ l) (hi : i < l.length) :
    cstr (l.set i nul) = l.take i := by
  rw [List.set_eq_take_append_cons_drop, if_pos hi]
  exact cstr_append_nul _ (fun hm => h (List.take_subset _ _ hm))

theorem getElem?_append_cons (A : List Char) (b : Char) (B : List Char) :
    (A ++ b :: B)[A.length]? = some b := by
  induction A with
  | nil => simp
  | cons a t ih => simpa using ih

theorem set_append_cons (A : List Char) (b x : Char) (B : List Char) :
    (A ++ b :: B).set A.length x = A ++ x :: B := by
  induction A with
  | nil => rfl
  | cons a t ih => simp [ih]

theorem lastIdxOf_spec {c : Char} {l : List Char} {i : Nat}
    (h : lastIdxOf c l = some i) : i < l.length ∧ l[i]? = some c := by
  induction l generalizing i with
  | nil => simp [lastIdxOf] at h
  | cons a t ih =>
    unfold lastIdxOf at h
    cases ht : lastIdxOf c t with
    | some j =>
      rw [ht] at h
      obtain rfl : j + 1 = i := by simpa using h
      obtain ⟨hj, hg⟩ := ih ht
      exact ⟨by simpa using hj, by simpa using hg⟩
    | none =>
      rw [ht] at h
      by_cases hac : a = c
      · obtain rfl : (0 : Nat) = i := by simpa [hac] using h
        exact ⟨by simp, by simp [hac]⟩
      · simp [hac] at h

theorem read_ok_eq (s : IBusData) (w : World) :
    (read_ibus_address s w).1.ok = s.ok := by
  unfold read_ibus_address
  rcases hc : w.fileContent s.address_file_name with _ | content
  · rfl
  · rcases hm : w.statMtime s.address_file_name with _ | m
    · rfl
    · rcases hf : find_value (fgets_chunks content.data) with _ | v <;> simp [hf]

theorem read_ibus_address_found {s : IBusData} {w : World} {content : String}
    {m : Int} {v : List Char}
    (hc : w.fileContent s.address_file_name = some content)
    (hm : w.statMtime s.address_file_name = some m)
    (hf : find_value (fgets_chunks content.data) = some v) :
    read_ibus_address s w =
      ({s with address_file_mtime := m, address := some ⟨v⟩}, true,
       [Event.fopenCall s.address_file_name, Event.fcloseCall]) := by
  unfold read_ibus_address
  rw [hc]
  simp only [hm, hf]

/-! ## Claim theorems -/

/-- Claim C1: every return of `setup_connection` leaves `ibus->ok` false,
whether it succeeded or aborted at any step; `ok` becomes true only when
the `input_context_created` continuation runs with a successful reply, and
an error reply, a malformed reply, or a SetCapabilities failure returns
without ever setting it. -/
theorem ready_flag_discipline (s : IBusData) (w : World) (errmsg pathArg : Option String) :
    (setup_connection s w).1.ok = false ∧
    (s.ok = false →
      ((input_context_created errmsg pathArg s w).1.ok = true ↔
        (errmsg = none ∧ pathArg.isSome = true ∧ w.voidCallOk "SetCapabilities" = true))) := by
  constructor
  · unfold setup_connection setup_connection_body
    rcases ha : (get_ibus_address_file_name w).1 with _ | fn
    · simp [ha]
    · simp only [ha]
      split
      · simp [read_ok_eq]
      · rcases hconn : (read_ibus_address {s with ok := false, address_file_name := some fn} w).1.conn with _ | c
        · simp only [hconn]
          rcases hc2 : w.connect (read_ibus_address {s with ok := false, address_file_name := some fn} w).1.address with _ | c2
          · simp [hc2, read_ok_eq]
          · simp only [hc2]
            split <;> simp [read_ok_eq]
        · simp only [hconn]
          rcases hc2 : w.connect (read_ibus_address {s with ok := false, address_file_name := some fn} w).1.address with _ | c2
          · simp [hc2, read_ok_eq]
          · simp only [hc2]
            split <;> simp [read_ok_eq]
  · intro hok
    unfold input_context_created
    rcases errmsg with _ | e
    · rcases pathArg with _ | p
      · simp [hok]
      · by_cases hcap : w.voidCallOk "SetCapabilities"
        · simp [hcap]
        · simp [hcap, hok]
    · simp [hok]

/-- Witness for C1 at a concrete state and world. -/
theorem ready_flag_discipline_witness :
    sZero.ok = false ∧
    ((setup_connection sZero wReply).1.ok = false ∧
     (sZero.ok = false →
       ((input_context_created none (some "/p") sZero wReply).1.ok = true ↔
         (none = (none : Option String) ∧ (some "/p").isSome = true ∧
          wReply.voidCallOk "SetCapabilities" = true)))) :=
  ⟨by decide, ready_flag_discipline sZero wReply none (some "/p")⟩

theorem strTake_of_le {n : Nat} {s : String} (h : s.length ≤ n) : strTake n s = s := by
  rcases s with ⟨l⟩
  have hl : l.length ≤ n := h
  show String.mk (l.take n) = String.mk l
  rw [List.take_of_length_le hl]

theorem has_env_var_iff (w : World) (envName val : String) :
    has_env_var w envName val = true ↔ w.env envName = some val := by
  unfold has_env_var
  rcases he : w.env envName with _ | q
  · simp
  · simp [beq_iff_eq]

/-- Claim C7: when the IBUS_ADDRESS override is set and non-empty, the
resolver returns it verbatim (truncated only past PATH_MAX), and consults
nothing else in the world. -/
theorem override_address_file_verbatim (w : World) (a : String)
    (h1 : w.env "IBUS_ADDRESS" = some a) (h2 : a.data ≠ []) :
    get_ibus_address_file_name w = (some (strTake PATH_MAX a), []) ∧
    (a.length ≤ PATH_MAX → get_ibus_address_file_name w = (some a, [])) ∧
    (∀ w2 : World, w2.env "IBUS_ADDRESS" = some a →
      get_ibus_address_file_name w2 = get_ibus_address_file_name w) := by
  refine ⟨?_, ?_, ?_⟩
  · unfold get_ibus_address_file_name
    rw [h1]
    simp [h2]
  · intro hlen
    unfold get_ibus_address_file_name
    rw [h1]
    simp [h2, strTake_of_le hlen]
  · intro w2 h1'
    unfold get_ibus_address_file_name
    rw [h1, h1']
    simp [h2]

/-- Witness for C7: the override "/tmp/af" is returned verbatim. -/
theorem override_address_file_verbatim_witness :
    get_ibus_address_file_name wReply = (some (strTake PATH_MAX "/tmp/af"), []) ∧
    get_ibus_address_file_name wReply = (some "/tmp/af", []) ∧
    (∀ w2 : World, w2.env "IBUS_ADDRESS" = some "/tmp/af" →
      get_ibus_address_file_name w2 = get_ibus_address_file_name wReply) := by
  have h := override_address_file_verbatim wReply "/tmp/af" (by decide) (by decide)
  exact ⟨h.1, h.2.1 (by decide), h.2.2⟩

/-- Claim C8: with a fresh session, `glfw_connect_to_ibus` invokes
`setup_connection` iff one of the three IME-selector variables has its
expected value; lacking all three it returns with `inited` still unset and
an empty trace (no connection attempt). -/
theorem activation_gate (s : IBusData) (w : World) (h : s.inited = false) :
    ((Event.setupEntry ∈ (glfw_connect_to_ibus s w).2) ↔
      (w.env "XMODIFIERS" = some "@im=ibus" ∨ w.env "GTK_IM_MODULE" = some "ibus" ∨
       w.env "QT_IM_MODULE" = some "ibus")) ∧
    (¬(w.env "XMODIFIERS" = some "@im=ibus" ∨ w.env "GTK_IM_MODULE" = some "ibus" ∨
       w.env "QT_IM_MODULE" = some "ibus") →
      glfw_connect_to_ibus s w = (s, []) ∧ (glfw_connect_to_ibus s w).1.inited = false) := by
  have hgate : (has_env_var w "XMODIFIERS" "@im=ibus" || has_env_var w "GTK_IM_MODULE" "ibus" ||
      has_env_var w "QT_IM_MODULE" "ibus") = true ↔
      (w.env "XMODIFIERS" = some "@im=ibus" ∨ w.env "GTK_IM_MODULE" = some "ibus" ∨
       w.env "QT_IM_MODULE" = some "ibus") := by
    simp [Bool.or_eq_true, has_env_var_iff, or_assoc]
  unfold glfw_connect_to_ibus
  rw [h]
  by_cases hg : (has_env_var w "XMODIFIERS" "@im=ibus" || has_env_var w "GTK_IM_MODULE" "ibus" ||
      has_env_var w "QT_IM_MODULE" "ibus") = true
  · rw [if_neg (by simp), if_pos hg]
    constructor
    · simp only [setup_connection]
      simpa using hgate.mp hg
    · intro hno
      exact absurd (hgate.mp hg) hno
  · rw [if_neg (by simp), if_neg hg]
    constructor
    · simp only [List.not_mem_nil, false_iff]
      exact fun hp => hg (hgate.mpr hp)
    · intro _
      exact ⟨rfl, h⟩

/-- Witness for C8 at a fresh state and a world advertising ibus. -/
theorem activation_gate_witness :
    ((Event.setupEntry ∈ (glfw_connect_to_ibus sZero wGate).2) ↔
      (wGate.env "XMODIFIERS" = some "@im=ibus" ∨ wGate.env "GTK_IM_MODULE" = some "ibus" ∨
       wGate.env "QT_IM_MODULE" = some "ibus")) ∧
    (¬(wGate.env "XMODIFIERS" = some "@im=ibus" ∨ wGate.env "GTK_IM_MODULE" = some "ibus" ∨
       wGate.env "QT_IM_MODULE" = some "ibus") →
      glfw_connect_to_ibus sZero wGate = (sZero, []) ∧
      (glfw_connect_to_ibus sZero wGate).1.inited = false) :=
  activation_gate sZero wGate (by decide)

/-- Claim C9: `glfw_ibus_terminate` is idempotent: a second call changes
nothing and performs no close or free; after the first call the connection
handle and all owned string fields are null and `ok` is false; and the
first call closes or frees each resource at most once. -/
theorem terminate_idempotent (s : IBusData) :
    (glfw_ibus_terminate (glfw_ibus_terminate s).1).1 = (glfw_ibus_terminate s).1 ∧
    (glfw_ibus_terminate (glfw_ibus_terminate s).1).2 = [] ∧
    (glfw_ibus_terminate s).1.conn = none ∧
    (glfw_ibus_terminate s).1.input_ctx_path = none ∧
    (glfw_ibus_terminate s).1.address = none ∧
    (glfw_ibus_terminate s).1.address_file_name = none ∧
    (glfw_ibus_terminate s).1.ok = false ∧
    (glfw_ibus_terminate s).2.Nodup := by
  rcases s with ⟨i, ok, conn, addr, afn, mt, ctx⟩
  rcases conn with _ | c <;> rcases addr with _ | av <;> rcases afn with _ | fv <;>
    rcases ctx with _ | cv <;>
      simp [glfw_ibus_terminate]

theorem statCall_mem_check_stale (s : IBusData) (w : World) :
    Event.statCall s.address_file_name ∈ (check_stale s w).2.2 := by
  unfold check_stale
  rcases hm : w.statMtime s.address_file_name with _ | m
  · simp only [hm]
    split <;> simp
  · simp only [hm]
    split
    · simp
    · split <;> simp

/-- Claim C10: `terminate` leaves `inited` set, so on an activated session
a later `glfw_ibus_set_focused` passes the activation check and, the
connection being null, reaches the address-file stat with a null path. -/
theorem null_path_stat_reachable (s : IBusData) (w : World) (focused : Bool)
    (h : s.inited = true) :
    Event.statCall none ∈ (glfw_ibus_set_focused (glfw_ibus_terminate s).1 w focused).2 := by
  rcases s with ⟨i, ok, conn, addr, afn, mt, ctx⟩
  subst h
  have hterm : (glfw_ibus_terminate ⟨true, ok, conn, addr, afn, mt, ctx⟩).1 =
      ⟨true, false, none, none, none, mt, none⟩ := by
    rcases conn with _ | c <;> rcases addr with _ | av <;> rcases afn with _ | fv <;>
      rcases ctx with _ | cv <;> simp [glfw_ibus_terminate]
  rw [hterm]
  have hmem : Event.statCall none ∈
      (check_stale ⟨true, false, none, none, none, mt, none⟩ w).2.2 :=
    statCall_mem_check_stale _ w
  unfold glfw_ibus_set_focused simple_message check_connection
  simp only [show ((⟨true, false, none, none, none, mt, none⟩ : IBusData).inited = false) ↔ False
    from by simp, if_false]
  split
  · exact List.mem_append_left _ hmem
  · exact hmem

/-- Witness for C10: after terminating an activated session, a focus
notification reaches the stat call with a null path. -/
theorem null_path_stat_reachable_witness :
    Event.statCall none ∈ (glfw_ibus_set_focused (glfw_ibus_terminate sFile).1 wEmpty false).2 :=
  null_path_stat_reachable sFile wEmpty false (by decide)

/-- Counterexample to C3 as stated: on a file with no IBUS_ADDRESS line,
`read_ibus_address` updates the stored mtime while leaving the stored
address unchanged. -/
theorem read_update_discipline_cex :
    (read_ibus_address sFile wNoKey).1.address_file_mtime ≠ sFile.address_file_mtime ∧
    (read_ibus_address sFile wNoKey).1.address = sFile.address := by decide

/-- Claim C3 amended: on the success path the address and the mtime are
updated together from the same read; on a failure return the address is
never touched, and the mtime alone is updated exactly when the file opened
and fstat succeeded but no matching line was found. -/
theorem read_update_discipline (s : IBusData) (w : World) :
    ((read_ibus_address s w).2.1 = true →
      ∃ m v, w.statMtime s.address_file_name = some m ∧
        (∃ content, w.fileContent s.address_file_name = some content ∧
          find_value (fgets_chunks content.data) = some v) ∧
        (read_ibus_address s w).1 = {s with address_file_mtime := m, address := some ⟨v⟩}) ∧
    ((read_ibus_address s w).2.1 = false →
      (read_ibus_address s w).1.address = s.address ∧
      ((read_ibus_address s w).1 = s ∨
       ∃ m, w.statMtime s.address_file_name = some m ∧
         (read_ibus_address s w).1 = {s with address_file_mtime := m})) := by
  unfold read_ibus_address
  rcases hc : w.fileContent s.address_file_name with _ | content
  · simp [hc]
  · rcases hm : w.statMtime s.address_file_name with _ | m
    · simp [hc, hm]
    · rcases hf : find_value (fgets_chunks content.data) with _ | v
      · simp [hc, hm, hf]
      · simp [hc, hm, hf]

/-- Witness for the amended C3 at a concrete state and world. -/
theorem read_update_discipline_witness :
    ((read_ibus_address sFile wLfFile).2.1 = true →
      ∃ m v, wLfFile.statMtime sFile.address_file_name = some m ∧
        (∃ content, wLfFile.fileContent sFile.address_file_name = some content ∧
          find_value (fgets_chunks content.data) = some v) ∧
        (read_ibus_address sFile wLfFile).1 =
          {sFile with address_file_mtime := m, address := some ⟨v⟩}) ∧
    ((read_ibus_address sFile wLfFile).2.1 = false →
      (read_ibus_address sFile wLfFile).1.address = sFile.address ∧
      ((read_ibus_address sFile wLfFile).1 = sFile ∨
       ∃ m, wLfFile.statMtime sFile.address_file_name = some m ∧
         (read_ibus_address sFile wLfFile).1 = {sFile with address_file_mtime := m})) :=
  read_update_discipline sFile wLfFile

/-- Counterexample to C5 as stated: with a CR-only line ending the code
returns the value with the trailing CR still attached. -/
theorem read_address_cr_cex :
    (read_ibus_address sFile wCrFile).2.1 = true ∧
    (read_ibus_address sFile wCrFile).1.address = some "abc\r" ∧
    some "abc\r" ≠ some "abc" := by decide

theorem takeLine_of_no_newline {l : List Char} {n : Nat}
    (hn : '\n' ∉ l) (hl : l.length ≤ n) : takeLine n l = l := by
  induction l generalizing n with
  | nil => cases n <;> rfl
  | cons c t ih =>
    cases n with
    | zero => simp at hl
    | succ k =>
      have hc : c ≠ '\n' := fun he => hn (by simp [he])
      have ht : '\n' ∉ t := fun hm => hn (by simp [hm])
      simp [takeLine, hc, ih ht (by simpa using hl)]

theorem takeLine_append_newline {A : List Char} (B : List Char) {n : Nat}
    (hA : '\n' ∉ A) (hl : A.length < n) :
    takeLine n (A ++ '\n' :: B) = A ++ ['\n'] := by
  induction A generalizing n with
  | nil =>
    cases n with
    | zero => simp at hl
    | succ k => simp [takeLine]
  | cons a t ih =>
    cases n with
    | zero => simp at hl
    | succ k =>
      have ha : a ≠ '\n' := fun he => hA (by simp [he])
      have ht : '\n' ∉ t := fun hm => hA (by simp [hm])
      simp [takeLine, ha, ih ht (by simpa using hl)]

theorem fgets_loop_nil (f : Nat) : fgets_loop f [] = [] := by
  cases f <;> rfl

theorem fgets_loop_succ (f : Nat) (l : List Char) :
    fgets_loop (f + 1) l =
      if l.isEmpty then []
      else takeLine 1023 l :: fgets_loop f (l.drop (takeLine 1023 l).length) := rfl

theorem fgets_chunks_single_newline {A : List Char}
    (hA : '\n' ∉ A) (hl : A.length < 1023) :
    fgets_chunks (A ++ ['\n']) = [A ++ ['\n']] := by
  unfold fgets_chunks
  rw [show (A ++ ['\n']).length = A.length + 1 by simp, fgets_loop_succ]
  rw [if_neg (by simp)]
  rw [show A ++ ['\n'] = A ++ '\n' :: [] from rfl, takeLine_append_newline [] hA hl]
  rw [show ((A ++ '\n' :: []).drop (A ++ ['\n']).length) = [] from List.drop_length _]
  rw [fgets_loop_nil]

theorem fgets_chunks_single {A : List Char} (hne : A ≠ [])
    (hA : '\n' ∉ A) (hl : A.length ≤ 1023) :
    fgets_chunks A = [A] := by
  unfold fgets_chunks
  rcases A with _ | ⟨a, t⟩
  · exact absurd rfl hne
  · rw [show (a :: t).length = t.length + 1 from rfl, fgets_loop_succ]
    rw [if_neg (by simp)]
    rw [takeLine_of_no_newline hA hl]
    rw [show ((a :: t).drop (a :: t).length) = [] from List.drop_length _]
    rw [fgets_loop_nil]

theorem chunk_matches_key (X : List Char) : chunk_matches (key13 ++ X) = true := by
  unfold chunk_matches
  rw [show (13 : Nat) = key13.length from rfl, List.take_left]
  exact beq_self_eq_true key13

theorem key13_length : key13.length = 13 := rfl

theorem value_of_chunk_lf {v : List Char}
    (h0 : nul ∉ v) (h2 : '\r' ∉ v) :
    value_of_chunk (key13 ++ v ++ ['\n']) = v := by
  unfold value_of_chunk strip_chunk strip_lf
  have hs1 : (key13 ++ v ++ ['\n']).length - 1 = (key13 ++ v).length := by
    simp only [List.length_append, List.length_cons, List.length_nil]
    omega
  have hs2 : (key13 ++ v ++ ['\n']).length - 2 = 12 + v.length := by
    simp only [List.length_append, List.length_cons, List.length_nil, key13_length]
    omega
  rw [hs1, hs2]
  rw [if_pos (getElem?_append_cons (key13 ++ v) '\n' [])]
  rw [set_append_cons (key13 ++ v) '\n' nul []]
  have hcond : ¬(((key13 ++ v) ++ nul :: [])[12 + v.length]? = some '\r') := by
    rcases List.eq_nil_or_concat' v with rfl | ⟨L, b, rfl⟩
    · decide
    · have hb : b ≠ '\r' := fun he => h2 (by simp [he])
      have he1 : (key13 ++ (L ++ [b])) ++ nul :: [] = (key13 ++ L) ++ b :: [nul] := by
        simp
      have he2 : 12 + (L ++ [b]).length = (key13 ++ L).length := by
        simp only [List.length_append, List.length_cons, List.length_nil, key13_length]
        omega
      rw [he1, he2, getElem?_append_cons]
      simp [hb]
  rw [if_neg hcond]
  rw [show (key13 ++ v) ++ nul :: [] = key13 ++ (v ++ nul :: []) by simp]
  rw [show (13 : Nat) = key13.length from rfl, List.drop_left]
  exact cstr_append_nul [] h0

theorem value_of_chunk_crlf {v : List Char} (h0 : nul ∉ v) :
    value_of_chunk (key13 ++ v ++ ['\r', '\n']) = v := by
  unfold value_of_chunk strip_chunk strip_lf
  have hs1 : (key13 ++ v ++ ['\r', '\n']).length - 1 = ((key13 ++ v) ++ ['\r']).length := by
    simp only [List.length_append, List.length_cons, List.length_nil]
    omega
  have hs2 : (key13 ++ v ++ ['\r', '\n']).length - 2 = (key13 ++ v).length := by
    simp only [List.length_append, List.length_cons, List.length_nil]
    omega
  rw [hs1, hs2]
  rw [show key13 ++ v ++ ['\r', '\n'] = ((key13 ++ v) ++ ['\r']) ++ '\n' :: [] by simp]
  rw [if_pos (getElem?_append_cons ((key13 ++ v) ++ ['\r']) '\n' [])]
  rw [set_append_cons ((key13 ++ v) ++ ['\r']) '\n' nul []]
  rw [show ((key13 ++ v) ++ ['\r']) ++ nul :: [] = (key13 ++ v) ++ '\r' :: [nul] by simp]
  rw [if_pos (getElem?_append_cons (key13 ++ v) '\r' [nul])]
  rw [set_append_cons (key13 ++ v) '\r' nul [nul]]
  rw [show (key13 ++ v) ++ nul :: [nul] = key13 ++ (v ++ nul :: [nul]) by simp]
  rw [show (13 : Nat) = key13.length from rfl, List.drop_left]
  exact cstr_append_nul [nul] h0

theorem value_of_chunk_plain {v : List Char}
    (h0 : nul ∉ v) (h1 : '\n' ∉ v) (h2 : '\r' ∉ v) :
    value_of_chunk (key13 ++ v) = v := by
  unfold value_of_chunk strip_chunk strip_lf
  have hc1 : ¬((key13 ++ v)[(key13 ++ v).length - 1]? = some '\n') := by
    rcases List.eq_nil_or_concat' v with rfl | ⟨L, b, rfl⟩
    · decide
    · have hb : b ≠ '\n' := fun he => h1 (by simp [he])
      have he1 : key13 ++ (L ++ [b]) = (key13 ++ L) ++ b :: [] := by simp
      have he2 : (key13 ++ (L ++ [b])).length - 1 = (key13 ++ L).length := by
        simp only [List.length_append, List.length_cons, List.length_nil]
        omega
      rw [he2, he1, getElem?_append_cons]
      simp [hb]
  rw [if_neg hc1]
  have hc2 : ¬((key13 ++ v)[(key13 ++ v).length - 2]? = some '\r') := by
    rcases List.eq_nil_or_concat' v with rfl | ⟨L, b, rfl⟩
    · decide
    · rcases List.eq_nil_or_concat' L with rfl | ⟨M, b2, rfl⟩
      · have he1 : key13 ++ (([] : List Char) ++ [b]) = key13 ++ [b] := by simp
        have he2 : (key13 ++ (([] : List Char) ++ [b])).length - 2 = 12 := by
          simp only [List.length_append, List.length_cons, List.length_nil, key13_length]
        rw [he2, he1, List.getElem?_append, key13_length]
        rw [if_pos (show (12 : Nat) < 13 by omega)]
        decide
      · have hb2 : b2 ≠ '\r' := fun he => h2 (by simp [he])
        have he1 : key13 ++ ((M ++ [b2]) ++ [b]) = (key13 ++ M) ++ b2 :: [b] := by simp
        have he2 : (key13 ++ ((M ++ [b2]) ++ [b])).length - 2 = (key13 ++ M).length := by
          simp only [List.length_append, List.length_cons, List.length_nil]
          omega
        rw [he2, he1, getElem?_append_cons]
        simp [hb2]
  rw [if_neg hc2]
  rw [show (13 : Nat) = key13.length from rfl, List.drop_left]
  exact cstr_of_not_mem h0

/-- Claim C5 amended: for a file whose matching line ends in LF, CRLF, or
nothing (end of file), the exact value after "IBUS_ADDRESS=" is returned —
with no trailing CR or LF — and the file's mtime is stored; a CR-only line
ending is NOT stripped (see the counterexample); when no matching line
exists an error is reported and the call fails. -/
theorem read_address_strips_lf_crlf
    (s : IBusData) (w : World) (fn content v e : String) (m : Int)
    (h1 : s.address_file_name = some fn)
    (h2 : w.fileContent (some fn) = some content)
    (h3 : content.data = key13 ++ v.data ++ e.data)
    (h4 : e = "\n" ∨ e = "\r\n" ∨ e = "")
    (h5 : nul ∉ v.data) (h6 : '\n' ∉ v.data) (h7 : '\r' ∉ v.data)
    (h8 : content.data.length ≤ 1023)
    (h9 : w.statMtime (some fn) = some m) :
    read_ibus_address s w =
      ({s with address_file_mtime := m, address := some v}, true,
       [Event.fopenCall (some fn), Event.fcloseCall]) ∧
    (∀ s2 : IBusData, ∀ c2 : String, ∀ m2 : Int,
      w.fileContent s2.address_file_name = some c2 →
      w.statMtime s2.address_file_name = some m2 →
      find_value (fgets_chunks c2.data) = none →
      read_ibus_address s2 w =
        ({s2 with address_file_mtime := m2}, false,
         [Event.fopenCall s2.address_file_name, Event.fcloseCall,
          Event.reportError "Could not find IBUS_ADDRESS in address file"])) := by
  have hknl : '\n' ∉ key13 := by decide
  constructor
  · have hfv : find_value (fgets_chunks content.data) = some v.data := by
      rcases h4 with rfl | rfl | rfl
      · have hdata : content.data = (key13 ++ v.data) ++ ['\n'] := by rw [h3]
        have hA : '\n' ∉ key13 ++ v.data := by
          intro hm
          rcases List.mem_append.mp hm with hm | hm
          · exact hknl hm
          · exact h6 hm
        have hlen : (key13 ++ v.data).length < 1023 := by
          rw [hdata] at h8
          simp only [List.length_append, List.length_cons, List.length_nil] at h8 ⊢
          omega
        rw [hdata, fgets_chunks_single_newline hA hlen]
        have hm1 : chunk_matches ((key13 ++ v.data) ++ ['\n']) = true := by
          rw [List.append_assoc]
          exact chunk_matches_key _
        simp only [find_value, hm1, if_true]
        rw [value_of_chunk_lf h5 h7]
      · have hdata : content.data = ((key13 ++ v.data) ++ ['\r']) ++ ['\n'] := by
          rw [h3]
          simp
        have hA : '\n' ∉ (key13 ++ v.data) ++ ['\r'] := by
          intro hm
          rcases List.mem_append.mp hm with hm | hm
          · rcases List.mem_append.mp hm with hm | hm
            · exact hknl hm
            · exact h6 hm
          · simp at hm
        have hlen : ((key13 ++ v.data) ++ ['\r']).length < 1023 := by
          rw [hdata] at h8
          simp only [List.length_append, List.length_cons, List.length_nil] at h8 ⊢
          omega
        rw [hdata, fgets_chunks_single_newline hA hlen]
        have hm1 : chunk_matches (((key13 ++ v.data) ++ ['\r']) ++ ['\n']) = true := by
          rw [List.append_assoc, List.append_assoc]
          exact chunk_matches_key _
        simp only [find_value, hm1, if_true]
        rw [show ((key13 ++ v.data) ++ ['\r']) ++ ['\n'] = key13 ++ v.data ++ ['\r', '\n'] by simp]
        rw [value_of_chunk_crlf h5]
      · have hdata : content.data = key13 ++ v.data := by
          rw [h3]
          simp
        have hkn : key13 ≠ [] := by decide
        have hne : key13 ++ v.data ≠ [] := fun hcon => hkn (List.append_eq_nil.mp hcon).1
        have hA : '\n' ∉ key13 ++ v.data := by
          intro hm
          rcases List.mem_append.mp hm with hm | hm
          · exact hknl hm
          · exact h6 hm
        have hlen : (key13 ++ v.data).length ≤ 1023 := by
          rw [hdata] at h8
          exact h8
        rw [hdata, fgets_chunks_single hne hA hlen]
        have hm1 : chunk_matches (key13 ++ v.data) = true := chunk_matches_key _
        simp only [find_value, hm1, if_true]
        rw [value_of_chunk_plain h5 h6 h7]
    have hc : w.fileContent s.address_file_name = some content := by rw [h1]; exact h2
    have hm : w.statMtime s.address_file_name = some m := by rw [h1]; exact h9
    rw [read_ibus_address_found hc hm hfv, h1]
  · intro s2 c2 m2 hc2 hm2 hf2
    unfold read_ibus_address
    rw [hc2]
    simp only [hm2, hf2]

/-- Witness for the amended C5 on a concrete LF-terminated address file. -/
theorem read_address_strips_lf_crlf_witness :
    read_ibus_address sFile wLfFile =
      ({sFile with address_file_mtime := 7, address := some "abc"}, true,
       [Event.fopenCall (some "f"), Event.fcloseCall]) ∧
    (∀ s2 : IBusData, ∀ c2 : String, ∀ m2 : Int,
      wLfFile.fileContent s2.address_file_name = some c2 →
      wLfFile.statMtime s2.address_file_name = some m2 →
      find_value (fgets_chunks c2.data) = none →
      read_ibus_address s2 wLfFile =
        ({s2 with address_file_mtime := m2}, false,
         [Event.fopenCall s2.address_file_name, Event.fcloseCall,
          Event.reportError "Could not find IBUS_ADDRESS in address file"])) :=
  read_address_strips_lf_crlf sFile wLfFile "f" "IBUS_ADDRESS=abc\n" "abc" "\n" 7
    (by decide) (by decide) (by decide) (Or.inl rfl)
    (by decide) (by decide) (by decide) (by decide) (by decide)

/-- Counterexample to C6 as stated: the code splits at the LAST colon
(`strrchr`), not the first; on "a:b:1" the code's host is "a:b" while the
claimed first-colon rule yields host "a" and number "b:1". -/
theorem display_split_claim_cex :
    parse_display "a:b:1" = some ("a:b", "1") ∧
    resolve_display_claim "a:b:1" = some ("a", "b:1") ∧
    parse_display "a:b:1" ≠ resolve_display_claim "a:b:1" := by decide

theorem parse_display_eq_amended (d : String) (hd : nul ∉ d.data) :
    parse_display d = parse_display_amended d := by
  unfold parse_display parse_display_amended
  rcases hci : lastIdxOf ':' d.data with _ | ci
  · simp only [hci]
  · obtain ⟨hcilt, hcig⟩ := lastIdxOf_spec hci
    rcases hdi : lastIdxOf '.' d.data with _ | di
    · simp only [hci, hdi]
      have hdrop : (d.data.set ci nul).drop (ci + 1) = d.data.drop (ci + 1) := by
        rw [List.drop_set, if_pos (by omega)]
      rw [cstr_set_nul hd hcilt, hdrop,
        cstr_of_not_mem (fun hm => hd (List.drop_subset _ _ hm))]
    · obtain ⟨hdilt, hdig⟩ := lastIdxOf_spec hdi
      have hne : di ≠ ci := by
        intro he
        rw [he, hcig] at hdig
        simp at hdig
      rcases Nat.lt_or_ge di ci with hlt | hge
      · have hhost : cstr ((d.data.set ci nul).set di nul) = d.data.take di := by
          have h10 : (d.data.set ci nul).set di nul =
              (d.data.set ci nul).take di ++ nul :: (d.data.set ci nul).drop (di + 1) := by
            rw [List.set_eq_take_append_cons_drop, if_pos (by rw [List.length_set]; omega)]
          rw [h10, List.take_set_of_lt _ _ hlt]
          exact cstr_append_nul _ (fun hm => hd (List.take_subset _ _ hm))
        have hdisp : cstr (((d.data.set ci nul).set di nul).drop (ci + 1)) =
            d.data.drop (ci + 1) := by
          rw [List.drop_set, if_pos (by omega), List.drop_set, if_pos (by omega)]
          exact cstr_of_not_mem (fun hm => hd (List.drop_subset _ _ hm))
        simp only [hci, hdi, if_pos hlt, if_neg (show ¬ci < di by omega)]
        rw [hhost, hdisp]
      · have hgt : ci < di := by omega
        have hhost : cstr ((d.data.set ci nul).set di nul) = d.data.take ci := by
          rw [List.set_comm _ _ _ (show ci ≠ di by omega)]
          have h10 : (d.data.set di nul).set ci nul =
              (d.data.set di nul).take ci ++ nul :: (d.data.set di nul).drop (ci + 1) := by
            rw [List.set_eq_take_append_cons_drop, if_pos (by rw [List.length_set]; omega)]
          rw [h10, List.take_set_of_lt _ _ hgt]
          exact cstr_append_nul _ (fun hm => hd (List.take_subset _ _ hm))
        have hdisp : cstr (((d.data.set ci nul).set di nul).drop (ci + 1)) =
            (d.data.drop (ci + 1)).take (di - (ci + 1)) := by
          rw [List.drop_set, if_neg (show ¬di < ci + 1 by omega), List.drop_set,
            if_pos (by omega)]
          exact cstr_set_nul (fun hm => hd (List.drop_subset _ _ hm))
            (by rw [List.length_drop]; omega)
        simp only [hci, hdi, if_neg (show ¬di < ci by omega), if_pos hgt]
        rw [hhost, hdisp]

/-- Claim C6 amended: the splitter uses the LAST colon and the LAST dot of
the display string (`strrchr`), not the first ones: the host is the part
before the last colon (cut at the last dot when that dot precedes the
colon), the display number runs from just after the last colon to the last
dot when it follows the colon (else to the end), and an empty host becomes
"unix"; in particular ":1.0" resolves to host "unix" and number "1", and
the composed path ends with "/ibus/bus/<machine-id>-unix-1". -/
theorem display_split_uses_last_separators
    (d : String) (hd : nul ∉ d.data) (w : World) (cfg : String)
    (h1 : w.env "IBUS_ADDRESS" = none)
    (h2 : w.env "DISPLAY" = some ":1.0")
    (h3 : w.env "XDG_CONFIG_HOME" = some cfg)
    (h4 : cfg.data ≠ [])
    (h5 : (cfg ++ "/ibus/bus/" ++ w.machineId ++ "-unix-1").length ≤ PATH_MAX - 1) :
    parse_display d = parse_display_amended d ∧
    parse_display ":1.0" = some ("unix", "1") ∧
    get_ibus_address_file_name w =
      (some (cfg ++ "/ibus/bus/" ++ w.machineId ++ "-unix-1"), []) := by
  refine ⟨parse_display_eq_amended d hd, by decide, ?_⟩
  have hp : parse_display ":1.0" = some ("unix", "1") := by decide
  have hde : ¬((":1.0" : String).data = []) := by decide
  have hassoc : cfg ++ ("/ibus/bus/" ++ w.machineId ++ "-" ++ "unix" ++ "-" ++ "1") =
      cfg ++ "/ibus/bus/" ++ w.machineId ++ "-unix-1" := by
    have hx : ("-" : String) ++ ("unix" ++ ("-" ++ "1")) = "-unix-1" := by decide
    simp only [String.append_assoc]
    rw [hx]
  have hcfg_le : cfg.length ≤ PATH_MAX - 1 := by
    have := h5
    simp only [String.length_append] at this
    omega
  unfold get_ibus_address_file_name derive_address_file config_home
  rw [h1, h2]
  simp only [hde, if_false, hp, h3, h4, if_neg h4]
  unfold compose_path
  rw [if_pos hcfg_le]
  rw [show cfg ++ ("/ibus/bus/" ++ w.machineId ++ "-" ++ "unix" ++ "-" ++ "1") =
    cfg ++ "/ibus/bus/" ++ w.machineId ++ "-unix-1" from hassoc]
  rw [strTake_of_le h5]

/-- Witness for the amended C6 on a concrete display and environment. -/
theorem display_split_uses_last_separators_witness :
    parse_display ":1.0" = parse_display_amended ":1.0" ∧
    parse_display ":1.0" = some ("unix", "1") ∧
    get_ibus_address_file_name wDisplay =
      (some ("/home/u/.cfg" ++ "/ibus/bus/" ++ wDisplay.machineId ++ "-unix-1"), []) :=
  display_split_uses_last_separators ":1.0" (by decide) wDisplay "/home/u/.cfg"
    (by decide) (by decide) (by decide) (by decide) (by decide)

/-- Counterexample to C4 as stated: in a fully successful setup the
object-path handler is registered with a null path, not with the context
path the daemon later assigns in the reply. -/
theorem handler_path_cex :
    (setup_connection sZero wReply).2.1 = true ∧
    Event.registerHandler none ∈ (setup_connection sZero wReply).2.2 ∧
    wReply.replyCtxPath = some "/org/freedesktop/IBus/InputContext_1" ∧
    Event.registerHandler (some "/org/freedesktop/IBus/InputContext_1") ∉
      (setup_connection sZero wReply).2.2 ∧
    (dispatch_reply (setup_connection sZero wReply).1 wReply).1.input_ctx_path =
      some "/org/freedesktop/IBus/InputContext_1" := by decide

/-- Claim C4 amended: after the asynchronous create-input-context request a
placeholder handler IS registered, but with the session's input-context
path field, which setup_connection has just cleared to null; the
daemon-assigned context path is only learned later in the continuation, so
the registered object path is null. -/
theorem handler_registered_with_cleared_path (s : IBusData) (w : World)
    (h : (setup_connection s w).2.1 = true) :
    Event.registerHandler none ∈ (setup_connection s w).2.2 ∧
    (setup_connection s w).1.input_ctx_path = none := by
  unfold setup_connection setup_connection_body at h ⊢
  rcases ha : (get_ibus_address_file_name w).1 with _ | fn
  · simp only [ha] at h
    simp at h
  · simp only [ha] at h ⊢
    by_cases hr : (read_ibus_address {s with ok := false, address_file_name := some fn} w).2.1 = false
    · rw [if_pos hr] at h
      simp at h
    · rw [if_neg hr] at h ⊢
      rcases hc : (read_ibus_address {s with ok := false, address_file_name := some fn} w).1.conn with _ | c
      · simp only [hc] at h ⊢
        rcases hw : w.connect (read_ibus_address {s with ok := false, address_file_name := some fn} w).1.address with _ | c2
        · simp only [hw] at h
          simp at h
        · simp only [hw] at h ⊢
          by_cases hcr : w.createCallOk = true
          · simp [hcr]
          · simp only [Bool.not_eq_true] at hcr
            rw [if_neg (by simp [hcr])] at h
            simp at h
      · simp only [hc] at h ⊢
        rcases hw : w.connect ({(read_ibus_address {s with ok := false, address_file_name := some fn} w).1 with conn := none} : IBusData).address with _ | c2
        · simp only [hw] at h
          simp at h
        · simp only [hw] at h ⊢
          by_cases hcr : w.createCallOk = true
          · simp [hcr]
          · simp only [Bool.not_eq_true] at hcr
            rw [if_neg (by simp [hcr])] at h
            simp at h

/-- Witness for the amended C4 on a concrete successful setup. -/
theorem handler_registered_with_cleared_path_witness :
    Event.registerHandler none ∈ (setup_connection sZero wReply).2.2 ∧
    (setup_connection sZero wReply).1.input_ctx_path = none :=
  handler_registered_with_cleared_path sZero wReply (by decide)

theorem setup_connection_reconnect
    (s : IBusData) (w : World) (c : Conn) (fn content v : String) (m : Int) (c2 : Conn)
    (h1 : s.conn = some c)
    (h2 : get_ibus_address_file_name w = (some fn, []))
    (h3 : w.fileContent (some fn) = some content)
    (h4 : w.statMtime (some fn) = some m)
    (h5 : find_value (fgets_chunks content.data) = some v.data)
    (h6 : w.connect (some v) = some c2) :
    (setup_connection s w).1.conn = some c2 ∧
    (setup_connection s w).1.address = some v ∧
    ∃ t, (setup_connection s w).2.2 =
      Event.setupEntry :: Event.fopenCall (some fn) :: Event.fcloseCall ::
        Event.closeConn c :: Event.connectTo (some v) :: t := by
  have hread : read_ibus_address {s with ok := false, address_file_name := some fn} w =
      (({s with ok := false, address_file_name := some fn, address_file_mtime := m, address := some v} : IBusData), true,
       [Event.fopenCall (some fn), Event.fcloseCall]) :=
    read_ibus_address_found h3 h4 h5
  unfold setup_connection setup_connection_body
  simp only [h2, hread]
  simp only [h1]
  simp only [h6]
  split
  · next hcontra => simp at hcontra
  · split <;> exact ⟨rfl, rfl, _, rfl⟩

/-- Claim C2: on an activated session whose connection is not live, a
failed stat or a changed mtime makes `check_connection` re-read the
address file and run a full `setup_connection`: the old handle is closed
before the fresh address is connected, and the state ends with the new
handle and the freshly read address; with an unchanged mtime and a dead
connection it returns false having changed nothing. -/
theorem stale_mtime_full_reconnect
    (s : IBusData) (w : World) (c : Conn) (fn content v : String) (m : Int) (c2 : Conn)
    (h0 : s.inited = true)
    (h1 : s.conn = some c)
    (hdead : w.isConnected c = false)
    (hfn : s.address_file_name = some fn)
    (h2 : get_ibus_address_file_name w = (some fn, []))
    (h3 : w.fileContent (some fn) = some content)
    (h4 : w.statMtime (some fn) = some m)
    (hm : m ≠ s.address_file_mtime)
    (h5 : find_value (fgets_chunks content.data) = some v.data)
    (h6 : w.connect (some v) = some c2) :
    (check_connection s w).1.conn = some c2 ∧
    (check_connection s w).1.address = some v ∧
    Event.closeConn c ∈ (check_connection s w).2.2.takeWhile (fun e => !e.isConnect) ∧
    Event.connectTo (some v) ∈ (check_connection s w).2.2 ∧
    (∀ s2 : IBusData, ∀ c3 : Conn, s2.inited = true → s2.conn = some c3 →
      w.isConnected c3 = false →
      w.statMtime s2.address_file_name = some s2.address_file_mtime →
      check_connection s2 w = (s2, false, [Event.statCall s2.address_file_name])) := by
  obtain ⟨i0, ok0, conn0, addr0, afn0, mt0, ctx0⟩ := s
  have h0' : i0 = true := h0
  have h1' : conn0 = some c := h1
  have hfn' : afn0 = some fn := hfn
  subst h0'
  subst h1'
  subst hfn'
  have hm' : ¬(m = mt0) := hm
  have hread : read_ibus_address ⟨true, ok0, some c, addr0, some fn, mt0, ctx0⟩ w =
      (⟨true, ok0, some c, some v, some fn, m, ctx0⟩, true,
       [Event.fopenCall (some fn), Event.fcloseCall]) :=
    read_ibus_address_found h3 h4 h5
  obtain ⟨hconn, haddr, t, ht⟩ :=
    setup_connection_reconnect ⟨true, ok0, some c, some v, some fn, m, ctx0⟩
      w c fn content v m c2 rfl h2 h3 h4 h5 h6
  have hcheck : check_connection ⟨true, ok0, some c, addr0, some fn, mt0, ctx0⟩ w =
      ((setup_connection ⟨true, ok0, some c, some v, some fn, m, ctx0⟩ w).1,
       (setup_connection ⟨true, ok0, some c, some v, some fn, m, ctx0⟩ w).2.1,
       Event.statCall (some fn) :: Event.fopenCall (some fn) :: Event.fcloseCall ::
         (setup_connection ⟨true, ok0, some c, some v, some fn, m, ctx0⟩ w).2.2) := by
    unfold check_connection
    rw [if_neg (by simp)]
    dsimp only
    rw [hdead]
    rw [if_neg (by simp)]
    unfold check_stale
    dsimp only
    simp only [h4]
    rw [if_neg hm']
    simp only [hread]
    rw [if_neg (by simp)]
    simp
  refine ⟨by rw [hcheck]; exact hconn, by rw [hcheck]; exact haddr, ?_, ?_, ?_⟩
  · rw [hcheck, ht]
    simp [List.takeWhile_cons, Event.isConnect]
  · rw [hcheck, ht]
    simp
  · intro s2 c3 g0 g1 g2 g3
    unfold check_connection
    rw [if_neg (by rw [g0]; simp)]
    simp only [g1]
    simp only [g2, Bool.false_eq_true, if_false]
    unfold check_stale
    simp only [g3]
    simp

/-- Witness for C2: a dead connection plus a changed mtime on a concrete
world yields a full reconnect with close-before-connect ordering. -/
theorem stale_mtime_full_reconnect_witness :
    (check_connection sLive wReply).1.conn = some 2 ∧
    (check_connection sLive wReply).1.address = some "addr1" ∧
    Event.closeConn 1 ∈ (check_connection sLive wReply).2.2.takeWhile (fun e => !e.isConnect) ∧
    Event.connectTo (some "addr1") ∈ (check_connection sLive wReply).2.2 ∧
    (∀ s2 : IBusData, ∀ c3 : Conn, s2.inited = true → s2.conn = some c3 →
      wReply.isConnected c3 = false →
      wReply.statMtime s2.address_file_name = some s2.address_file_mtime →
      check_connection s2 wReply = (s2, false, [Event.statCall s2.address_file_name])) :=
  stale_mtime_full_reconnect sLive wReply 1 "/tmp/af" "IBUS_ADDRESS=addr1\n" "addr1" 9 2
    (by decide) (by decide) (by decide) (by decide) (by decide) (by decide) (by decide)
    (by decide) (by decide) (by decide)

end IBusGlfw
